/-
Verification of the udb-cli chat module (src/chat.ts): the streaming
conversation engine, the knowledge-base tool handlers (MCP "Capability
Server"), and the REPL loop.

The shallow embedding translates the TypeScript source directly:
  * the per-turn stream classifier in `streamClaudeResponse` becomes a fold
    over a list of stream events;
  * each tool handler of `createKBMcpServer` becomes a function from the
    delegated knowledge-store operation (modelled as `Except String _`,
    a promise that either rejects with a thrown fault or resolves) to
    `Except String ToolInvocationResult` (an async handler that may itself
    reject);
  * the REPL loop of `startChat` becomes a recursive function over the list
    of input lines, emitting an ordered trace of the load-bearing events
    (turn start, history append, turn settle, clear, close, resolve); the
    sequencing of JavaScript `await` continuations on the single-threaded
    event loop is translated as sequential composition.
JavaScript string truthiness (`a || b`, `if (s)`) is modelled explicitly:
an absent value and the empty string both fall through.
-/
import Mathlib

namespace UdbCli

/-! ## Data model -/

/-- Role of a chat message (src/chat.ts `ChatMessage.role`). -/
inductive Role where
  | user
  | assistant
deriving DecidableEq, Repr

/-- One entry of the conversation history (src/chat.ts `ChatMessage`). -/
structure ChatMessage where
  role : Role
  content : String
deriving DecidableEq, Repr

/-- JavaScript `s.endsWith(t)`, on the underlying character sequences. -/
def jsEndsWith (s t : String) : Bool := t.data.isSuffixOf s.data

/-- JavaScript `s.slice(0, -1)`: the string without its last character. -/
def sliceDropLast (s : String) : String := ⟨s.data.dropLast⟩

/-- JavaScript `s.trim()`: strip whitespace from both ends. -/
def jsTrim (s : String) : String :=
  ⟨((s.data.dropWhile Char.isWhitespace).reverse.dropWhile Char.isWhitespace).reverse⟩

/-- JavaScript `s.toLowerCase()`, characterwise. -/
def jsToLower (s : String) : String := ⟨s.data.map Char.toLower⟩

/-- JavaScript `a || b` on an optional string: `undefined` and `""` are both
falsy and fall through to the default. -/
def strOr (a : Option String) (b : String) : String :=
  match a with
  | some s => if s = "" then b else s
  | none => b

/-- JavaScript truthiness of an optional string (`if (x)`). -/
def jsTruthy (a : Option String) : Bool :=
  match a with
  | some s => s ≠ ""
  | none => false

/-- Interpolation of a possibly-absent string into a template literal:
JavaScript renders `undefined` as the text "undefined". -/
def optStr (a : Option String) : String :=
  match a with
  | some s => s
  | none => "undefined"

/-- Interpolation of a possibly-absent count into a template literal. -/
def optNat (a : Option Nat) : String :=
  match a with
  | some n => toString n
  | none => "undefined"

/-! ## Stream classifier (src/chat.ts `streamClaudeResponse`, lines 336-441)

The SDK message sequence is modelled by the fields the code inspects:
a `stream_event` whose event is a `content_block_start` carries the optional
`content_block.type` tag; a `content_block_delta` carries the delta's
optional `text` field (absent for e.g. `input_json_delta`); an `assistant`
message carries the string `extractTextFromMessage` computes from it (the
concatenation of its text blocks); every other message kind is ignored by
the code and collapses to `other`. -/

inductive StreamEvent where
  /-- `stream_event` with `event.type = "content_block_start"`;
  the argument is `event.content_block?.type`. -/
  | contentBlockStart (blockType : Option String)
  /-- `stream_event` with `event.type = "content_block_delta"`;
  the argument is the delta's `text` field when present. -/
  | contentBlockDelta (text : Option String)
  /-- non-streaming `assistant` message; the argument is the text
  `extractTextFromMessage` extracts from it. -/
  | assistant (text : String)
  /-- any other SDK message (`system`, `result`, tool results, ...). -/
  | other
deriving DecidableEq, Repr

/-- The per-turn mutable state of the classifier loop:
`textBuffer`, `hasOutputText` (lines 384-385) and the running answer
accumulator `response` (line 350). -/
structure StreamState where
  textBuffer : String
  hasOutputText : Bool
  response : String
deriving DecidableEq, Repr

/-- One iteration of the `for await (const message of q)` loop
(src/chat.ts lines 387-426), as a pure state transformer.

* `content_block_start` of a `tool_use` block with a non-empty buffer
  flushes the buffer as a thought: `response += textBuffer + "\n"` and the
  buffer is cleared (lines 392-399).  The `text`-block branch at lines
  402-404 performs no action and is omitted.
* `content_block_delta` with a `text` field appends to the buffer and sets
  `hasOutputText` (lines 407-414).
* an `assistant` message is a fallback used only when no streaming text,
  no buffered text and no response exist yet, and only when the extracted
  text is non-empty (lines 415-425). -/
def processEvent (st : StreamState) (e : StreamEvent) : StreamState :=
  match e with
  | .contentBlockStart blockType =>
      if blockType = some "tool_use" ∧ st.textBuffer ≠ "" then
        { st with response := st.response ++ st.textBuffer ++ "\n", textBuffer := "" }
      else
        st
  | .contentBlockDelta (some t) =>
      { st with textBuffer := st.textBuffer ++ t, hasOutputText := true }
  | .contentBlockDelta none => st
  | .assistant t =>
      if ¬ st.hasOutputText ∧ st.textBuffer = "" ∧ st.response = "" ∧ t ≠ "" then
        { st with response := t }
      else
        st
  | .other => st

/-- The answer computed from a complete event sequence: the loop fold
followed by the final flush `if (textBuffer) { response += textBuffer }`
(src/chat.ts lines 387-433). -/
def finalAnswer (events : List StreamEvent) : String :=
  let st := events.foldl processEvent ⟨"", false, ""⟩
  if st.textBuffer = "" then st.response else st.response ++ st.textBuffer

/-- The `"<Role>: <content>\n\n"` transcript prefix built from the history
(src/chat.ts lines 344-348). -/
def roleLabel (r : Role) : String :=
  match r with
  | .user => "User"
  | .assistant => "Assistant"

/-- The full prompt submitted to the model session (src/chat.ts
lines 343-348). -/
def fullPrompt (question : String) (history : List ChatMessage) : String :=
  (history.foldl (fun acc m => acc ++ roleLabel m.role ++ ": " ++ m.content ++ "\n\n") "")
    ++ "User: " ++ question

/-- `streamClaudeResponse` (src/chat.ts lines 336-441).  The model session
opened on the full prompt is an external collaborator, modelled as a
function from the prompt to the finite event sequence it produced together
with an optional fault: `some msg` when session setup or stream consumption
threw with message `msg` (in which case the `catch` at lines 434-438
replaces the whole response with the synthetic error answer), `none` when
the stream completed normally. -/
def streamClaudeResponse (question : String) (history : List ChatMessage)
    (session : String → List StreamEvent × Option String) : String :=
  let out := session (fullPrompt question history)
  match out.2 with
  | some msg => "I encountered an error: " ++ msg
  | none => finalAnswer out.1

/-- Specification-side reconstruction of §4.3 / §8 of the spec: scan the
event sequence keeping the list of thought segments flushed at tool-use
content-block starts and the text still buffered at end of stream. -/
def thoughtScan (acc : List String × String) (e : StreamEvent) : List String × String :=
  match e with
  | .contentBlockStart blockType =>
      if blockType = some "tool_use" ∧ acc.2 ≠ "" then (acc.1 ++ [acc.2], "")
      else acc
  | .contentBlockDelta (some t) => (acc.1, acc.2 ++ t)
  | _ => acc

/-- The thought segments flushed at tool-use boundaries, and the trailing
buffered text, of an event sequence. -/
def thoughtFlushes (events : List StreamEvent) : List String × String :=
  events.foldl thoughtScan ([], "")

/-! ## Capability Server (src/chat.ts `createKBMcpServer`, lines 63-273)

Each tool handler is an `async` arrow function; the knowledge-store
operations it delegates to (`search`, `ingestContent`, `ingestUrl`,
`listKBSources`, `deleteKBSource`, `getSourceById`, `getChunksBySourceId`)
are external collaborators, modelled as functions returning
`Except String _`: `.error msg` is a rejected promise / thrown fault with
message `msg`, `.ok v` a resolved value.  An `await` of a rejection inside
a handler with no surrounding `try` makes the handler itself reject, which
the `Except` monad's bind reproduces.  Numbers from the `z.number()`
schemas are modelled as rationals. -/

/-- One text segment of a tool result's `content` array. -/
structure ContentItem where
  text : String
deriving DecidableEq, Repr

/-- The result shape a tool handler returns to the model session.  An
absent `isError` field is modelled as `false`. -/
structure ToolInvocationResult where
  content : List ContentItem
  isError : Bool := false
deriving DecidableEq, Repr

/-- Options the `kb_search` handler passes to `search` (src/chat.ts
lines 81-84). -/
structure SearchOpts where
  limit : ℚ
  minSimilarity : ℚ
deriving DecidableEq, Repr

/-- One row returned by the knowledge-store `search` collaborator. -/
structure SearchResult where
  source_type : String
  source_title : Option String
  source_url : Option String
  similarity : ℚ
  content : String
deriving DecidableEq, Repr

/-- Model of JavaScript `x.toFixed(1)` on a rational: round to one decimal
place (half away from zero on the non-negative numbers the code feeds it)
and print as `<int>.<digit>`. -/
def toFixed1 (q : ℚ) : String :=
  let n : ℤ := ⌊q * 10 + 1 / 2⌋
  toString (n / 10) ++ "." ++ toString (n % 10)

/-- The per-result line of `kb_search`'s formatted output (src/chat.ts
lines 89-93): index, source type, title-or-url-or-"Unknown", similarity as
a percentage, then the full chunk content. -/
def formatSearchResult (i : Nat) (r : SearchResult) : String :=
  toString (i + 1) ++ ". [" ++ r.source_type ++ "] "
    ++ strOr r.source_title (strOr r.source_url "Unknown")
    ++ " (" ++ toFixed1 (r.similarity * 100) ++ "%)\n" ++ r.content

/-- The `kb_search` tool handler (src/chat.ts lines 69-104).  An omitted
`limit` defaults to 5 and an omitted `minSimilarity` to 0.4 via `??`;
an empty result list yields the success text "No results found.". -/
def kb_search (searchOp : String → SearchOpts → Except String (List SearchResult))
    (query : String) (limit minSimilarity : Option ℚ) :
    Except String ToolInvocationResult := do
  let results ← searchOp query ⟨limit.getD 5, minSimilarity.getD (0.4 : ℚ)⟩
  if results.length = 0 then
    return { content := [⟨"No results found."⟩] }
  let formatted := String.intercalate "\n\n---\n\n"
    (results.enum.map fun p => formatSearchResult p.1 p.2)
  return { content :=
    [⟨"Found " ++ toString results.length ++ " result(s):\n\n" ++ formatted⟩] }

/-- Options passed to `ingestContent` / `ingestUrl` (title and tags). -/
structure IngestOpts where
  title : Option String
  tags : Option (List String)
deriving DecidableEq, Repr

/-- Result shape of the `ingestContent` / `ingestUrl` collaborators. -/
structure IngestResult where
  success : Bool
  source_id : Option String
  chunks_count : Option Nat
  error : Option String
  existingSourceId : Option String
deriving DecidableEq, Repr

/-- The `kb_add` tool handler (src/chat.ts lines 107-138): delegate to
`ingestContent`; a `success` result becomes a success text, a structured
failure becomes `isError := true`.  No `try` surrounds the `await`. -/
def kb_add (ingestContentOp : String → IngestOpts → Except String IngestResult)
    (content title : String) (tags : Option (List String)) :
    Except String ToolInvocationResult := do
  let result ← ingestContentOp content ⟨some title, tags⟩
  if result.success then
    return { content := [⟨"Added successfully!\n  Source ID: " ++ optStr result.source_id
      ++ "\n  Chunks: " ++ optNat result.chunks_count⟩] }
  return { content := [⟨"Failed to add: " ++ optStr result.error⟩], isError := true }

/-- The error text `kb_ingest` builds for a structured failure (src/chat.ts
lines 167-170): a truthy `existingSourceId` appends an "Already exists"
line. -/
def ingestFailText (result : IngestResult) : String :=
  let errorMsg := "Failed to ingest: " ++ optStr result.error
  if jsTruthy result.existingSourceId then
    errorMsg ++ "\n  Already exists: " ++ optStr result.existingSourceId
  else errorMsg

/-- The `kb_ingest` tool handler (src/chat.ts lines 141-173): like
`kb_add` but for URLs. -/
def kb_ingest (ingestUrlOp : String → IngestOpts → Except String IngestResult)
    (url : String) (title : Option String) (tags : Option (List String)) :
    Except String ToolInvocationResult := do
  let result ← ingestUrlOp url ⟨title, tags⟩
  if result.success then
    return { content := [⟨"Ingested successfully!\n  Source ID: " ++ optStr result.source_id
      ++ "\n  Chunks: " ++ optNat result.chunks_count⟩] }
  return { content := [⟨ingestFailText result⟩], isError := true }

/-- One row returned by the `listKBSources` collaborator. -/
structure SourceSummary where
  id : String
  title : Option String
  url : Option String
  source_type : String
  created_at : String
deriving DecidableEq, Repr

/-- The `kb_list` tool handler (src/chat.ts lines 176-210).  The
locale-dependent `new Date(_).toLocaleDateString()` rendering is the
external `formatDate` collaborator. -/
def kb_list (listOp : ℚ → Except String (List SourceSummary))
    (formatDate : String → String) (limit : Option ℚ) :
    Except String ToolInvocationResult := do
  let sources ← listOp (limit.getD 20)
  if sources.length = 0 then
    return { content := [⟨"Knowledge base is empty."⟩] }
  let formatted := String.intercalate "\n\n" (sources.map fun s =>
    let title := strOr s.title (strOr s.url "Untitled")
    let date := formatDate s.created_at
    let entry := "• " ++ s.id ++ "\n  " ++ title ++ "\n  [" ++ s.source_type ++ "] " ++ date
    if jsTruthy s.url then entry ++ "\n  " ++ optStr s.url else entry)
  return { content :=
    [⟨"Sources (" ++ toString sources.length ++ "):\n\n" ++ formatted⟩] }

/-- Result shape of the `deleteKBSource` collaborator. -/
structure DeleteResult where
  success : Bool
  error : Option String
deriving DecidableEq, Repr

/-- The `kb_delete` tool handler (src/chat.ts lines 213-233). -/
def kb_delete (deleteOp : String → Except String DeleteResult) (id : String) :
    Except String ToolInvocationResult := do
  let result ← deleteOp id
  if result.success then
    return { content := [⟨"Deleted source: " ++ id⟩] }
  return { content := [⟨"Failed to delete: " ++ optStr result.error⟩], isError := true }

/-- Row returned by the `getSourceById` collaborator. -/
structure Source where
  title : Option String
  url : Option String
  source_type : String
deriving DecidableEq, Repr

/-- Row returned by the `getChunksBySourceId` collaborator. -/
structure Chunk where
  content : String
deriving DecidableEq, Repr

/-- The display name of a source: `source.title || source.url ||
args.source_id` with JavaScript truthiness. -/
def sourceDisplay (s : Source) (source_id : String) : String :=
  strOr s.title (strOr s.url source_id)

/-- The `kb_get_source_chunks` tool handler (src/chat.ts lines 236-270):
a missing source is a tool-level error; an existing source with zero chunks
is a success carrying an explicit "No chunks found" message; otherwise all
chunks are concatenated under a header. -/
def kb_get_source_chunks (getSourceOp : String → Except String (Option Source))
    (getChunksOp : String → Except String (List Chunk)) (source_id : String) :
    Except String ToolInvocationResult := do
  let source? ← getSourceOp source_id
  match source? with
  | none =>
      return { content := [⟨"Source not found: " ++ source_id⟩], isError := true }
  | some source =>
      let chunks ← getChunksOp source_id
      if chunks.length = 0 then
        return { content :=
          [⟨"No chunks found for source: " ++ sourceDisplay source source_id⟩] }
      let formatted := String.intercalate "\n\n" (chunks.enum.map fun p =>
        "--- Chunk " ++ toString (p.1 + 1) ++ "/" ++ toString chunks.length
          ++ " ---\n" ++ p.2.content)
      let header := "Source: " ++ sourceDisplay source source_id
        ++ "\nType: " ++ source.source_type
        ++ "\nTotal chunks: " ++ toString chunks.length ++ "\n\n"
      return { content := [⟨header ++ formatted⟩] }

/-! ## REPL loop (src/chat.ts `startChat`, lines 446-581)

`readline` delivers input lines in order and fires `close` when the input
source is exhausted; the loop's `await`-chain makes every step sequential
on the single-threaded event loop, so `startChat` is translated as a
recursive function over the pending list of input lines.  Along the way it
emits an ordered trace of the observable events:

* `turnStart q` — the turn for question `q` begins: `pendingOperation` is
  created and the model session for `q` is opened (lines 527-535);
* `histAppend m` — `history.push(m)` (lines 539-540);
* `turnSettle q r` — the `pendingOperation` promise settles
  (`r = some answer` when the body returned, `none` when it threw and the
  `catch` at line 541 swallowed the fault);
* `histCleared` — the `clear` command emptied the history (line 520);
* `closed` — the readline interface closed (end of input, or "exit");
* `resolved` — the promise returned by `startChat` resolves: only after
  `close` has fired and a pending operation, if any, has been awaited
  (lines 565-580). -/

/-- Observable events of one `startChat` run, in order of occurrence. -/
inductive ReplEvent where
  | turnStart (question : String)
  | histAppend (m : ChatMessage)
  | turnSettle (question : String) (answer : Option String)
  | histCleared
  | closed
  | resolved
deriving DecidableEq, Repr

/-- The multi-line collection loop `processLine` inside `collectInput`
(src/chat.ts lines 470-488): while the current line ends with a backslash,
strip it, remember the line and read the next one; the first line without
the marker ends collection and the remembered lines are joined with
newlines.  `rest` is the queue of not-yet-delivered input lines; `none`
means the input ended while a continuation line was awaited (the promise
never resolves; the interface just closes). -/
def collectLoop : List String → String → List String → Option (String × List String)
  | acc, line, rest =>
    if jsEndsWith line "\\" then
      match rest with
      | [] => none
      | l :: rs => collectLoop (acc ++ [sliceDropLast line]) l rs
    else
      some (String.intercalate "\n" (acc ++ [line]), rest)

/-- The question `promptUser` derives from the line it read and the queued
continuation lines (src/chat.ts lines 497-501): `collectInput` when the
line ends with a backslash — on a line without the marker `collectLoop`
returns the line unchanged at once, so the two paths of the ternary at
line 497 agree — followed by `.trim()`. -/
def questionOfLines (line : String) (rest : List String) : Option String :=
  (collectLoop [] line rest).map fun p => jsTrim p.1

/-- The body of `pendingOperation` as it affects the history (src/chat.ts
lines 527-544): when the `try` block completes with answer `a`, the
question and the answer are pushed, in that order; when it throws, the
`catch` logs and nothing is appended. -/
def runTurnHistory (hist : List ChatMessage) (question : String)
    (body : Except String String) : List ChatMessage :=
  match body with
  | .ok answer => hist ++ [⟨.user, question⟩, ⟨.assistant, answer⟩]
  | .error _ => hist

/-- The recursive prompt loop `promptUser` (src/chat.ts lines 490-554) run
to completion on the queued input lines, with the `collectInput`
continuation chain inlined: `acc` holds the marker-stripped lines gathered
so far (`[]` when the loop is at a fresh `You:` prompt, the source's
`lines` array while inside `collectInput`).  `outs k` is the outcome of
the `k`-th turn's `pendingOperation` body: `.ok answer` when
`streamClaudeResponse` returned `answer` and the subsequent writes
succeeded, `.error` when something in the `try` block threw.  Returns the
final history and the emitted event trace. -/
def promptUserLoop (outs : Nat → Except String String) :
    List String → List String → Nat → List ChatMessage →
    List ChatMessage × List ReplEvent
  | [], _, _, hist => (hist, [.closed])
  | line :: rest, acc, k, hist =>
    if jsEndsWith line "\\" then
      promptUserLoop outs rest (acc ++ [sliceDropLast line]) k hist
    else
      let question := jsTrim (String.intercalate "\n" (acc ++ [line]))
      if question = "" then
        promptUserLoop outs rest [] k hist
      else if jsToLower question = "exit" ∨ jsToLower question = "quit" then
        (hist, [.closed])
      else if jsToLower question = "clear" then
        let r := promptUserLoop outs rest [] k []
        (r.1, .histCleared :: r.2)
      else
        let settleEvents : List ReplEvent :=
          match outs k with
          | .ok a => [.histAppend ⟨.user, question⟩, .histAppend ⟨.assistant, a⟩,
              .turnSettle question (some a)]
          | .error _ => [.turnSettle question none]
        let r := promptUserLoop outs rest [] (k + 1) (runTurnHistory hist question (outs k))
        (r.1, .turnStart question :: (settleEvents ++ r.2))

/-- `startChat` (src/chat.ts lines 446-581): run the prompt loop on the
whole input; the returned promise resolves only once the interface has
closed and any pending operation has been awaited (lines 565-580), so
`resolved` is the final event of the trace. -/
def startChat (inputs : List String) (outs : Nat → Except String String) :
    List ChatMessage × List ReplEvent :=
  let r := promptUserLoop outs inputs [] 0 []
  (r.1, r.2 ++ [.resolved])

/-! ## Helper predicates and lemmas -/

/-- Concatenation of thought segments, each followed by exactly one
newline, in order. -/
def thoughtsConcat (segs : List String) : String :=
  segs.foldl (fun acc s => acc ++ (s ++ "\n")) ""

theorem thoughtsConcat_append (xs : List String) (y : String) :
    thoughtsConcat (xs ++ [y]) = thoughtsConcat xs ++ (y ++ "\n") := by
  simp [thoughtsConcat]

/-- An event sequence made only of text deltas and tool-use content-block
starts (the sequences claim C1 quantifies over). -/
def DeltasAndToolStarts (events : List StreamEvent) : Prop :=
  ∀ e ∈ events, (∃ t, e = StreamEvent.contentBlockDelta (some t)) ∨
    e = StreamEvent.contentBlockStart (some "tool_use")

/-- On delta/tool-start sequences the classifier fold tracks the
specification scan: the running `response` is the newline-joined
concatenation of the flushed thought segments and `textBuffer` is the
scan's buffer. -/
theorem stream_fold_spec (events : List StreamEvent) :
    ∀ (segs : List String) (buf : String) (b : Bool),
    DeltasAndToolStarts events →
    (events.foldl processEvent ⟨buf, b, thoughtsConcat segs⟩).response =
      thoughtsConcat (events.foldl thoughtScan (segs, buf)).1 ∧
    (events.foldl processEvent ⟨buf, b, thoughtsConcat segs⟩).textBuffer =
      (events.foldl thoughtScan (segs, buf)).2 := by
  induction events with
  | nil => intro segs buf b _; exact ⟨rfl, rfl⟩
  | cons e es ih =>
      intro segs buf b hr
      have he := hr e (List.mem_cons_self e es)
      have hes : DeltasAndToolStarts es := fun x hx => hr x (List.mem_cons_of_mem e hx)
      rcases he with ⟨t, rfl⟩ | rfl
      · simpa [processEvent, thoughtScan] using ih segs (buf ++ t) true hes
      · by_cases hbuf : buf = ""
        · subst hbuf
          simpa [processEvent, thoughtScan] using ih segs "" b hes
        · have hstep : processEvent ⟨buf, b, thoughtsConcat segs⟩
              (StreamEvent.contentBlockStart (some "tool_use")) =
              ⟨"", b, thoughtsConcat (segs ++ [buf])⟩ := by
            simp [processEvent, hbuf, thoughtsConcat_append, String.append_assoc]
          have hscan : thoughtScan (segs, buf)
              (StreamEvent.contentBlockStart (some "tool_use")) = (segs ++ [buf], "") := by
            simp [thoughtScan, hbuf]
          simpa [hstep, hscan] using ih (segs ++ [buf]) "" b hes

/-! ## Claims -/

/-- C1: for every finite sequence of stream events made of text deltas and
tool-use content-block starts, the string `streamClaudeResponse` returns as
the turn's recorded answer equals the concatenation, in arrival order, of
every thought segment flushed at a tool-use content-block start (each
segment followed by exactly one newline) followed by the text remaining in
the buffer at end of stream. -/
theorem stream_answer_reconstructible (question : String)
    (history : List ChatMessage) (events : List StreamEvent)
    (hr : DeltasAndToolStarts events) :
    streamClaudeResponse question history (fun _ => (events, none)) =
      thoughtsConcat (thoughtFlushes events).1 ++ (thoughtFlushes events).2 := by
  have h := stream_fold_spec events [] "" false hr
  have hinit : (⟨"", false, ""⟩ : StreamState) = ⟨"", false, thoughtsConcat []⟩ := rfl
  simp only [streamClaudeResponse, finalAnswer, thoughtFlushes, hinit]
  rcases h with ⟨hresp, hbuf⟩
  by_cases hb : (events.foldl processEvent ⟨"", false, thoughtsConcat []⟩).textBuffer = ""
  · rw [if_pos hb, hresp, ← hbuf, hb, String.append_empty]
  · rw [if_neg hb, hresp, hbuf]

/-- WITNESS for C1: the spec's end-to-end example — deltas "Let me check",
a tool call, then "The answer is 42" yield the recorded answer
"Let me check\nThe answer is 42". -/
theorem stream_answer_reconstructible_witness :
    streamClaudeResponse "q" []
      (fun _ => ([StreamEvent.contentBlockDelta (some "Let me check"),
        StreamEvent.contentBlockStart (some "tool_use"),
        StreamEvent.contentBlockDelta (some "The answer is 42")], none)) =
      "Let me check\nThe answer is 42" := by
  have h := stream_answer_reconstructible "q" []
    [StreamEvent.contentBlockDelta (some "Let me check"),
     StreamEvent.contentBlockStart (some "tool_use"),
     StreamEvent.contentBlockDelta (some "The answer is 42")]
    (by intro e he; fin_cases he
        · exact Or.inl ⟨"Let me check", rfl⟩
        · exact Or.inr rfl
        · exact Or.inl ⟨"The answer is 42", rfl⟩)
  exact h.trans (by decide)

/-- C5: if the model session itself faults (the stream component of the
session outcome carries a thrown message), `streamClaudeResponse` catches
it and returns normally with the answer string
"I encountered an error: <message>" — for every question and history. -/
theorem stream_fault_caught (question : String) (history : List ChatMessage)
    (session : String → List StreamEvent × Option String) (msg : String)
    (h : (session (fullPrompt question history)).2 = some msg) :
    streamClaudeResponse question history session =
      "I encountered an error: " ++ msg := by
  simp [streamClaudeResponse, h]

/-- WITNESS for C5: a session that throws "spawn claude ENOENT" before
producing any event yields the synthetic error answer. -/
theorem stream_fault_caught_witness :
    streamClaudeResponse "q" [] (fun _ => ([], some "spawn claude ENOENT")) =
      "I encountered an error: spawn claude ENOENT" :=
  stream_fault_caught "q" [] (fun _ => ([], some "spawn claude ENOENT"))
    "spawn claude ENOENT" rfl

/-- COUNTEREXAMPLE to C2: the `kb_search` handler has no `try`/`catch`
around its `await search(...)`, so when the delegated knowledge-store
operation fails by throwing, the handler itself rejects with the same
fault — it does not return a `ToolInvocationResult` with `isError` true. -/
theorem tool_handler_propagates_thrown_fault :
    kb_search (fun _ _ => Except.error "knowledge store unavailable")
      "anything" none none = Except.error "knowledge store unavailable" := rfl

/-- C2 (amended): every tool handler translates a *structured* failure
result (`success: false`) of the delegated operation into
`ToolInvocationResult{isError: true}` without throwing, but a delegated
operation that fails by *throwing* has its fault propagate out of the
handler, for every handler that delegates. -/
theorem tool_handler_error_translation
    (ingestContentOp ingestUrlOp : String → IngestOpts → Except String IngestResult)
    (searchOp : String → SearchOpts → Except String (List SearchResult))
    (listOp : ℚ → Except String (List SourceSummary)) (formatDate : String → String)
    (deleteOp : String → Except String DeleteResult)
    (getSourceOp : String → Except String (Option Source))
    (getChunksOp : String → Except String (List Chunk))
    (content title url id q e : String) (titleOpt : Option String)
    (tags : Option (List String)) (lim ms : Option ℚ)
    (r : IngestResult) (dr : DeleteResult) :
    (ingestContentOp content ⟨some title, tags⟩ = .ok r → r.success = false →
      kb_add ingestContentOp content title tags =
        .ok { content := [⟨"Failed to add: " ++ optStr r.error⟩], isError := true }) ∧
    (ingestUrlOp url ⟨titleOpt, tags⟩ = .ok r → r.success = false →
      kb_ingest ingestUrlOp url titleOpt tags =
        .ok { content := [⟨ingestFailText r⟩], isError := true }) ∧
    (deleteOp id = .ok dr → dr.success = false →
      kb_delete deleteOp id =
        .ok { content := [⟨"Failed to delete: " ++ optStr dr.error⟩], isError := true }) ∧
    (ingestContentOp content ⟨some title, tags⟩ = .error e →
      kb_add ingestContentOp content title tags = .error e) ∧
    (ingestUrlOp url ⟨titleOpt, tags⟩ = .error e →
      kb_ingest ingestUrlOp url titleOpt tags = .error e) ∧
    (searchOp q ⟨lim.getD 5, ms.getD (0.4 : ℚ)⟩ = .error e →
      kb_search searchOp q lim ms = .error e) ∧
    (listOp (lim.getD 20) = .error e → kb_list listOp formatDate lim = .error e) ∧
    (deleteOp id = .error e → kb_delete deleteOp id = .error e) ∧
    (getSourceOp id = .error e →
      kb_get_source_chunks getSourceOp getChunksOp id = .error e) := by
  refine ⟨?_, ?_, ?_, ?_, ?_, ?_, ?_, ?_, ?_⟩
  · intro h hs; simp [kb_add, h, hs, Except.bind, Bind.bind, pure, Except.pure]
  · intro h hs; simp [kb_ingest, h, hs, Except.bind, Bind.bind, pure, Except.pure]
  · intro h hs; simp [kb_delete, h, hs, Except.bind, Bind.bind, pure, Except.pure]
  · intro h; simp [kb_add, h, Except.bind, Bind.bind]
  · intro h; simp [kb_ingest, h, Except.bind, Bind.bind]
  · intro h; simp [kb_search, h, Except.bind, Bind.bind]
  · intro h; simp [kb_list, h, Except.bind, Bind.bind]
  · intro h; simp [kb_delete, h, Except.bind, Bind.bind]
  · intro h; simp [kb_get_source_chunks, h, Except.bind, Bind.bind]

/-- WITNESS for C2 (amended): a structured `kb_add` failure becomes an
`isError` result, and a throwing `search` collaborator makes `kb_search`
itself reject. -/
theorem tool_handler_error_translation_witness :
    kb_add (fun _ _ => .ok ⟨false, none, none, some "disk full", none⟩) "c" "t" none =
      .ok { content := [⟨"Failed to add: disk full"⟩], isError := true } ∧
    kb_search (fun _ _ => Except.error "boom") "q" none none = Except.error "boom" := by
  constructor
  · exact (tool_handler_error_translation
      (fun _ _ => .ok ⟨false, none, none, some "disk full", none⟩)
      (fun _ _ => .ok ⟨false, none, none, none, none⟩) (fun _ _ => .ok [])
      (fun _ => .ok []) id (fun _ => .ok ⟨true, none⟩) (fun _ => .ok none)
      (fun _ => .ok []) "c" "t" "u" "i" "q" "e" none none none none
      ⟨false, none, none, some "disk full", none⟩ ⟨true, none⟩).1 rfl rfl
  · exact (tool_handler_error_translation
      (fun _ _ => .ok ⟨false, none, none, some "disk full", none⟩)
      (fun _ _ => .ok ⟨false, none, none, none, none⟩)
      (fun _ _ => Except.error "boom")
      (fun _ => .ok []) id (fun _ => .ok ⟨true, none⟩) (fun _ => .ok none)
      (fun _ => .ok []) "c" "t" "u" "i" "q" "boom" none none none none
      ⟨false, none, none, some "disk full", none⟩ ⟨true, none⟩).2.2.2.2.2.1 rfl

/-- C6: `kb_get_source_chunks` distinguishes a missing source (a tool-level
error, `isError` true) from an existing source with zero chunks (a success
carrying an explicit "No chunks found" message). -/
theorem get_source_chunks_outcomes
    (getSourceOp : String → Except String (Option Source))
    (getChunksOp : String → Except String (List Chunk)) (id : String) :
    (getSourceOp id = .ok none →
      kb_get_source_chunks getSourceOp getChunksOp id =
        .ok { content := [⟨"Source not found: " ++ id⟩], isError := true }) ∧
    (∀ s, getSourceOp id = .ok (some s) → getChunksOp id = .ok [] →
      kb_get_source_chunks getSourceOp getChunksOp id =
        .ok ⟨[⟨"No chunks found for source: " ++ sourceDisplay s id⟩], false⟩) := by
  constructor
  · intro h; simp [kb_get_source_chunks, h, Except.bind, Bind.bind, pure, Except.pure]
  · intro s h hc
    simp [kb_get_source_chunks, h, hc, Except.bind, Bind.bind, pure, Except.pure]

/-- WITNESS for C6: a store without source "s1" yields the error result; a
store with a chunkless source "s2" titled "Notes" yields the success
message. -/
theorem get_source_chunks_outcomes_witness :
    kb_get_source_chunks (fun _ => .ok none) (fun _ => .ok []) "s1" =
      .ok { content := [⟨"Source not found: s1"⟩], isError := true } ∧
    kb_get_source_chunks (fun _ => .ok (some ⟨some "Notes", none, "note"⟩))
      (fun _ => .ok []) "s2" =
      .ok { content := [⟨"No chunks found for source: Notes"⟩], isError := false } := by
  constructor
  · exact (get_source_chunks_outcomes (fun _ => .ok none) (fun _ => .ok []) "s1").1 rfl
  · exact (get_source_chunks_outcomes (fun _ => .ok (some ⟨some "Notes", none, "note"⟩))
      (fun _ => .ok []) "s2").2 ⟨some "Notes", none, "note"⟩ rfl rfl

/-- C7: `kb_search` defaults an omitted `limit` to 5 and an omitted
`minSimilarity` to 0.4, and an empty search result is a success reading
"No results found." (no error flag), never an error. -/
theorem kb_search_defaults_and_empty
    (searchOp : String → SearchOpts → Except String (List SearchResult))
    (q : String) (lim ms : Option ℚ) :
    kb_search searchOp q none none = kb_search searchOp q (some 5) (some (0.4 : ℚ)) ∧
    (searchOp q ⟨lim.getD 5, ms.getD (0.4 : ℚ)⟩ = .ok [] →
      kb_search searchOp q lim ms =
        .ok { content := [⟨"No results found."⟩], isError := false }) := by
  constructor
  · rfl
  · intro h; simp [kb_search, h, Except.bind, Bind.bind, pure, Except.pure]

/-- WITNESS for C7: a store with no matches yields the "No results found."
success through the defaulted options. -/
theorem kb_search_defaults_and_empty_witness :
    kb_search (fun _ _ => .ok []) "q" none none =
      .ok { content := [⟨"No results found."⟩], isError := false } :=
  (kb_search_defaults_and_empty (fun _ _ => .ok []) "q" none none).2 rfl

/-- `String.intercalate` on a one-element list is the element itself. -/
theorem intercalate_single (s a : String) : String.intercalate s [a] = a := rfl

/-- Running the collection loop over marker-carrying lines `first :: mids`
followed by a marker-free line `lastL`: every marker line is stripped and
remembered, `lastL` ends the collection, and the joined string is returned
with the remaining queue untouched. -/
theorem collectLoop_concat (mids : List String) :
    ∀ (acc : List String) (first lastL : String) (extra : List String),
    (∀ l ∈ first :: mids, jsEndsWith l "\\" = true) →
    jsEndsWith lastL "\\" = false →
    collectLoop acc first (mids ++ lastL :: extra) =
      some (String.intercalate "\n"
        (acc ++ (first :: mids).map sliceDropLast ++ [lastL]), extra) := by
  induction mids with
  | nil =>
      intro acc first lastL extra h1 h2
      have hf := h1 first (List.mem_cons_self first [])
      rw [collectLoop.eq_def]
      simp only [hf, if_true, List.nil_append]
      rw [collectLoop.eq_def]
      simp [h2]
  | cons m ms ih =>
      intro acc first lastL extra h1 h2
      have hf := h1 first (List.mem_cons_self first (m :: ms))
      rw [collectLoop.eq_def]
      simp only [hf, if_true, List.cons_append]
      have h1' : ∀ l ∈ m :: ms, jsEndsWith l "\\" = true := fun l hl =>
        h1 l (List.mem_cons_of_mem first hl)
      rw [ih (acc ++ [sliceDropLast first]) m lastL extra h1' h2]
      simp

/-- COUNTEREXAMPLE to C8: the joined multi-line input is passed through
`.trim()` (src/chat.ts line 501) before reaching the Conversation Driver,
so for the input lines " hello\\" then "world" the question is
"hello\nworld", not the plain backslash-stripped newline-join
" hello\nworld" the claim predicts. -/
theorem multiline_question_trimmed :
    questionOfLines " hello\\" ["world"] = some "hello\nworld" ∧
    ("hello\nworld" : String) ≠ " hello\nworld" := by
  constructor
  · rfl
  · decide

/-- C8 (amended): for a sequence of input lines whose non-final lines each
end with the backslash continuation marker (and whose final line does
not), the question passed to the Conversation Driver is the `trim` of the
lines with each trailing backslash stripped, joined by newline. -/
theorem multiline_question_joined (first lastL : String) (mids extra : List String) :
    (jsEndsWith lastL "\\" = false → questionOfLines lastL extra = some (jsTrim lastL)) ∧
    ((∀ l ∈ first :: mids, jsEndsWith l "\\" = true) → jsEndsWith lastL "\\" = false →
      questionOfLines first (mids ++ lastL :: extra) =
        some (jsTrim (String.intercalate "\n"
          ((first :: mids).map sliceDropLast ++ [lastL])))) := by
  constructor
  · intro h2
    unfold questionOfLines
    rw [collectLoop.eq_def]
    simp [h2, intercalate_single]
  · intro h1 h2
    unfold questionOfLines
    rw [collectLoop_concat mids [] first lastL extra h1 h2]
    simp

/-- WITNESS for C8 (amended): the claim's own example — the inputs
"hello\\" then "world" produce exactly the question string
"hello\nworld". -/
theorem multiline_question_joined_witness :
    questionOfLines "hello\\" ["world"] = some "hello\nworld" := by
  have h := (multiline_question_joined "hello\\" "world" [] []).2
    (by decide) (by decide)
  exact h.trans (by decide)

/-! ## REPL trace predicates -/

/-- Is this event the start of a turn (a model session being opened)? -/
def isTurnStart : ReplEvent → Bool
  | .turnStart _ => true
  | _ => false

/-- Is this event the settling of a turn's pending operation? -/
def isTurnSettle : ReplEvent → Bool
  | .turnSettle _ _ => true
  | _ => false

/-- Turns are serialized in a trace: scanning left to right with a flag
telling whether a new turn may start (`true` = no turn in flight), a turn
start is legal only when none is in flight and a settle only when one is;
other events do not change the flag. -/
def serializedFrom : Bool → List ReplEvent → Bool
  | _, [] => true
  | true, .turnStart _ :: r => serializedFrom false r
  | false, .turnStart _ :: _ => false
  | true, .turnSettle _ _ :: _ => false
  | false, .turnSettle _ _ :: r => serializedFrom true r
  | b, _ :: r => serializedFrom b r

/-- Scan a history expecting a user entry (`true`) or an assistant entry
(`false`) next; accept only when the scan ends with a completed pair. -/
def rolesAlt : Bool → List ChatMessage → Bool
  | b, [] => b
  | true, m :: r => if m.role = Role.user then rolesAlt false r else false
  | false, m :: r => if m.role = Role.assistant then rolesAlt true r else false

/-- The history shape invariant: entries strictly alternate, a user entry
followed by an assistant entry, so the length is even. -/
def alternatesUA (l : List ChatMessage) : Bool := rolesAlt true l

/-- `resolved` is never emitted by the prompt loop itself (only the
`startChat` wrapper appends it, after the loop has run to completion). -/
theorem loop_no_resolved (outs : Nat → Except String String) :
    ∀ (inputs acc : List String) (k : Nat) (hist : List ChatMessage),
    ReplEvent.resolved ∉ (promptUserLoop outs inputs acc k hist).2 := by
  intro inputs
  induction inputs with
  | nil => intro acc k hist; simp [promptUserLoop]
  | cons line rest ih =>
      intro acc k hist
      simp only [promptUserLoop]
      cases hb : jsEndsWith line "\\" with
      | true => simpa [hb] using ih (acc ++ [sliceDropLast line]) k hist
      | false =>
          simp only [hb, Bool.false_eq_true, if_false]
          split
          · exact ih [] k hist
          · split
            · simp
            · split
              · simpa using ih [] k []
              · cases ho : outs k with
                | ok a => simpa [ho] using ih [] (k + 1) _
                | error e => simpa [ho] using ih [] (k + 1) _

/-- Every turn the loop starts also settles within the loop's own trace:
the two event counts agree. -/
theorem loop_counts (outs : Nat → Except String String) :
    ∀ (inputs acc : List String) (k : Nat) (hist : List ChatMessage),
    ((promptUserLoop outs inputs acc k hist).2.countP isTurnStart) =
      ((promptUserLoop outs inputs acc k hist).2.countP isTurnSettle) := by
  intro inputs
  induction inputs with
  | nil => intro acc k hist; simp [promptUserLoop, isTurnStart, isTurnSettle]
  | cons line rest ih =>
      intro acc k hist
      simp only [promptUserLoop]
      cases hb : jsEndsWith line "\\" with
      | true => simpa [hb] using ih (acc ++ [sliceDropLast line]) k hist
      | false =>
          simp only [hb, Bool.false_eq_true, if_false]
          split
          · exact ih [] k hist
          · split
            · simp [isTurnStart, isTurnSettle]
            · split
              · simpa [isTurnStart, isTurnSettle, List.countP_cons] using ih [] k []
              · cases ho : outs k with
                | ok a =>
                    simpa [ho, isTurnStart, isTurnSettle, List.countP_cons,
                      List.countP_append] using ih [] (k + 1) _
                | error e =>
                    simpa [ho, isTurnStart, isTurnSettle, List.countP_cons,
                      List.countP_append] using ih [] (k + 1) _

/-- Whenever the loop's trace contains a turn settling with answer `a` to
question `q`, it also contains the two corresponding history appends. -/
theorem loop_settle_appends (outs : Nat → Except String String) :
    ∀ (inputs acc : List String) (k : Nat) (hist : List ChatMessage)
      (q a : String),
    ReplEvent.turnSettle q (some a) ∈ (promptUserLoop outs inputs acc k hist).2 →
    ReplEvent.histAppend ⟨.user, q⟩ ∈ (promptUserLoop outs inputs acc k hist).2 ∧
    ReplEvent.histAppend ⟨.assistant, a⟩ ∈ (promptUserLoop outs inputs acc k hist).2 := by
  intro inputs
  induction inputs with
  | nil => intro acc k hist q a h; simp [promptUserLoop] at h
  | cons line rest ih =>
      intro acc k hist q a h
      simp only [promptUserLoop] at h ⊢
      cases hb : jsEndsWith line "\\" with
      | true =>
          simp only [hb, if_true] at h ⊢
          exact ih (acc ++ [sliceDropLast line]) k hist q a h
      | false =>
          simp only [hb, Bool.false_eq_true, if_false] at h ⊢
          by_cases hq : jsTrim (String.intercalate "\n" (acc ++ [line])) = ""
          · rw [if_pos hq] at h ⊢
            exact ih [] k hist q a h
          · rw [if_neg hq] at h ⊢
            by_cases hx : jsToLower (jsTrim (String.intercalate "\n" (acc ++ [line]))) = "exit" ∨
                jsToLower (jsTrim (String.intercalate "\n" (acc ++ [line]))) = "quit"
            · rw [if_pos hx] at h
              simp at h
            · rw [if_neg hx] at h ⊢
              by_cases hc : jsToLower (jsTrim (String.intercalate "\n" (acc ++ [line]))) = "clear"
              · rw [if_pos hc] at h ⊢
                simp only [List.mem_cons] at h
                rcases h with h | h
                · exact absurd h (by simp)
                · have hih := ih [] k [] q a h
                  exact ⟨List.mem_cons_of_mem _ hih.1, List.mem_cons_of_mem _ hih.2⟩
              · rw [if_neg hc] at h ⊢
                cases ho : outs k with
                | ok a2 =>
                    simp only [ho] at h ⊢
                    simp only [List.cons_append, List.nil_append, List.mem_cons] at h
                    rcases h with h | h | h | h | h
                    · exact absurd h (by simp)
                    · exact absurd h (by simp)
                    · exact absurd h (by simp)
                    · have hinj := ReplEvent.turnSettle.inj h
                      rcases hinj with ⟨rfl, ha⟩
                      cases Option.some.inj ha
                      constructor
                      · simp [List.mem_cons]
                      · simp [List.mem_cons]
                    · have hih := ih [] (k + 1) _ q a h
                      constructor
                      · simp only [List.cons_append, List.nil_append, List.mem_cons]
                        exact Or.inr (Or.inr (Or.inr (Or.inr hih.1)))
                      · simp only [List.cons_append, List.nil_append, List.mem_cons]
                        exact Or.inr (Or.inr (Or.inr (Or.inr hih.2)))
                | error e =>
                    simp only [ho] at h ⊢
                    simp only [List.cons_append, List.nil_append, List.mem_cons] at h
                    rcases h with h | h | h
                    · exact absurd h (by simp)
                    · exact absurd h (by simp)
                    · have hih := ih [] (k + 1) _ q a h
                      constructor
                      · simp only [List.cons_append, List.nil_append, List.mem_cons]
                        exact Or.inr (Or.inr hih.1)
                      · simp only [List.cons_append, List.nil_append, List.mem_cons]
                        exact Or.inr (Or.inr hih.2)

/-- Appending one user/assistant pair preserves the alternation scan. -/
theorem rolesAlt_append_pair (q a : String) :
    ∀ (l : List ChatMessage) (b : Bool), rolesAlt b l = true →
    rolesAlt b (l ++ [⟨.user, q⟩, ⟨.assistant, a⟩]) = true := by
  intro l
  induction l with
  | nil =>
      intro b h
      simp only [rolesAlt] at h
      subst h
      simp [rolesAlt]
  | cons m r ih =>
      intro b h
      cases b with
      | true =>
          simp only [rolesAlt] at h ⊢
          by_cases hm : m.role = Role.user
          · rw [if_pos hm] at h ⊢
            exact ih false h
          · rw [if_neg hm] at h
            exact absurd h (by simp)
      | false =>
          simp only [rolesAlt] at h ⊢
          by_cases hm : m.role = Role.assistant
          · rw [if_pos hm] at h ⊢
            exact ih true h
          · rw [if_neg hm] at h
            exact absurd h (by simp)

/-- An accepted alternation scan pins the list's parity: started expecting
a user entry, the list has even length. -/
theorem rolesAlt_even :
    ∀ (l : List ChatMessage) (b : Bool), rolesAlt b l = true →
    (l.length + cond b 0 1) % 2 = 0 := by
  intro l
  induction l with
  | nil =>
      intro b h
      simp only [rolesAlt] at h
      subst h
      simp
  | cons m r ih =>
      intro b h
      cases b with
      | true =>
          simp only [rolesAlt] at h
          by_cases hm : m.role = Role.user
          · rw [if_pos hm] at h
            have hr := ih false h
            simp only [cond_false, cond_true, List.length_cons] at hr ⊢
            omega
          · rw [if_neg hm] at h
            exact absurd h (by simp)
      | false =>
          simp only [rolesAlt] at h
          by_cases hm : m.role = Role.assistant
          · rw [if_pos hm] at h
            have hr := ih true h
            simp only [cond_false, cond_true, List.length_cons] at hr ⊢
            omega
          · rw [if_neg hm] at h
            exact absurd h (by simp)

/-- The prompt loop preserves the history alternation invariant: each turn
either appends a user/assistant pair or leaves the history unchanged, and
`clear` resets it to the (alternating) empty history. -/
theorem loop_alternates (outs : Nat → Except String String) :
    ∀ (inputs acc : List String) (k : Nat) (hist : List ChatMessage),
    alternatesUA hist = true →
    alternatesUA (promptUserLoop outs inputs acc k hist).1 = true := by
  intro inputs
  induction inputs with
  | nil => intro acc k hist h; simpa [promptUserLoop] using h
  | cons line rest ih =>
      intro acc k hist h
      simp only [promptUserLoop]
      cases hb : jsEndsWith line "\\" with
      | true => simpa [hb] using ih (acc ++ [sliceDropLast line]) k hist h
      | false =>
          simp only [hb, Bool.false_eq_true, if_false]
          split
          · exact ih [] k hist h
          · split
            · simpa using h
            · split
              · exact ih [] k [] (by simp [alternatesUA, rolesAlt])
              · cases ho : outs k with
                | ok a =>
                    simp only [ho]
                    exact ih [] (k + 1) _
                      (rolesAlt_append_pair _ _ hist true h)
                | error e =>
                    simp only [ho]
                    exact ih [] (k + 1) _ h

/-- Appending the final `resolved` marker preserves turn serialization:
`resolved` is not a turn boundary. -/
theorem serializedFrom_append_resolved :
    ∀ (tr : List ReplEvent) (b : Bool), serializedFrom b tr = true →
    serializedFrom b (tr ++ [ReplEvent.resolved]) = true := by
  intro tr
  induction tr with
  | nil => intro b _; cases b <;> simp [serializedFrom]
  | cons e r ih =>
      intro b h
      cases e with
      | turnStart q =>
          cases b with
          | true =>
              simp only [serializedFrom, List.cons_append] at h ⊢
              exact ih false h
          | false => simp [serializedFrom] at h
      | turnSettle q a =>
          cases b with
          | true => simp [serializedFrom] at h
          | false =>
              simp only [serializedFrom, List.cons_append] at h ⊢
              exact ih true h
      | histAppend m =>
          simp only [serializedFrom, List.cons_append] at h ⊢
          exact ih b h
      | histCleared =>
          simp only [serializedFrom, List.cons_append] at h ⊢
          exact ih b h
      | closed =>
          simp only [serializedFrom, List.cons_append] at h ⊢
          exact ih b h
      | resolved =>
          simp only [serializedFrom, List.cons_append] at h ⊢
          exact ih b h

/-- The prompt loop's trace is turn-serialized: every `turnStart` is
followed by its `turnSettle` before any other `turnStart` appears. -/
theorem loop_serialized (outs : Nat → Except String String) :
    ∀ (inputs acc : List String) (k : Nat) (hist : List ChatMessage),
    serializedFrom true (promptUserLoop outs inputs acc k hist).2 = true := by
  intro inputs
  induction inputs with
  | nil => intro acc k hist; simp [promptUserLoop, serializedFrom]
  | cons line rest ih =>
      intro acc k hist
      simp only [promptUserLoop]
      cases hb : jsEndsWith line "\\" with
      | true => simpa [hb] using ih (acc ++ [sliceDropLast line]) k hist
      | false =>
          simp only [hb, Bool.false_eq_true, if_false]
          split
          · exact ih [] k hist
          · split
            · simp [serializedFrom]
            · split
              · simpa [serializedFrom] using ih [] k []
              · cases ho : outs k with
                | ok a =>
                    simp only [ho, List.cons_append, List.nil_append]
                    simpa [serializedFrom] using ih [] (k + 1) _
                | error e =>
                    simp only [ho, List.cons_append, List.nil_append]
                    simpa [serializedFrom] using ih [] (k + 1) _

/-- C3: the trace of a `startChat` run ends with the single `resolved`
event; every started turn has settled within the trace (equal counts), and
whenever a turn settled with an answer, the question/answer pair was
appended to the history — all of it before `resolved`, which is last. -/
theorem shutdown_waits_for_pending_turn (inputs : List String)
    (outs : Nat → Except String String) :
    (∃ tr, (startChat inputs outs).2 = tr ++ [ReplEvent.resolved] ∧
      ReplEvent.resolved ∉ tr) ∧
    ((startChat inputs outs).2.countP isTurnStart =
      (startChat inputs outs).2.countP isTurnSettle) ∧
    (∀ q a, ReplEvent.turnSettle q (some a) ∈ (startChat inputs outs).2 →
      ReplEvent.histAppend ⟨.user, q⟩ ∈ (startChat inputs outs).2 ∧
      ReplEvent.histAppend ⟨.assistant, a⟩ ∈ (startChat inputs outs).2) := by
  refine ⟨⟨(promptUserLoop outs inputs [] 0 []).2, rfl,
    loop_no_resolved outs inputs [] 0 []⟩, ?_, ?_⟩
  · simp only [startChat, List.countP_append]
    rw [loop_counts outs inputs [] 0 []]
    simp [isTurnStart, isTurnSettle]
  · intro q a h
    simp only [startChat, List.mem_append, List.mem_cons] at h
    rcases h with h | h
    · have hm := loop_settle_appends outs inputs [] 0 [] q a h
      constructor
      · simp only [startChat, List.mem_append]
        exact Or.inl hm.1
      · simp only [startChat, List.mem_append]
        exact Or.inl hm.2
    · simp at h

/-- WITNESS for C3: in a one-question run the settled answer's appends are
in the trace (and precede the final `resolved`). -/
theorem shutdown_waits_for_pending_turn_witness :
    ReplEvent.histAppend ⟨.user, "hi"⟩ ∈
      (startChat ["hi"] (fun _ => Except.ok "yo")).2 ∧
    ReplEvent.histAppend ⟨.assistant, "yo"⟩ ∈
      (startChat ["hi"] (fun _ => Except.ok "yo")).2 :=
  (shutdown_waits_for_pending_turn ["hi"] (fun _ => Except.ok "yo")).2.2
    "hi" "yo" (by decide)

/-- C4: at most one Turn is ever in flight — the trace of every run is
turn-serialized: no `turnStart` occurs while a previous turn is between its
`turnStart` and its `turnSettle`, so answers are never reordered relative
to questions. -/
theorem turns_never_overlap (inputs : List String)
    (outs : Nat → Except String String) :
    serializedFrom true (startChat inputs outs).2 = true := by
  simp only [startChat]
  exact serializedFrom_append_resolved _ true (loop_serialized outs inputs [] 0 [])

/-- Dispatching a `clear` question: the loop empties the history, emits
only `histCleared`, opens no turn (the turn counter is unchanged) and
continues with the remaining input from the empty history. -/
theorem loop_dispatch_clear (outs : Nat → Except String String)
    (line : String) (rest acc : List String) (k : Nat)
    (hist : List ChatMessage) (hb : jsEndsWith line "\\" = false)
    (hclear : jsToLower (jsTrim (String.intercalate "\n" (acc ++ [line]))) = "clear") :
    promptUserLoop outs (line :: rest) acc k hist =
      ((promptUserLoop outs rest [] k []).1,
       ReplEvent.histCleared :: (promptUserLoop outs rest [] k []).2) := by
  have hne : jsTrim (String.intercalate "\n" (acc ++ [line])) ≠ "" := by
    intro hq
    rw [hq] at hclear
    exact absurd hclear (by decide)
  have hexit : ¬(jsToLower (jsTrim (String.intercalate "\n" (acc ++ [line]))) = "exit" ∨
      jsToLower (jsTrim (String.intercalate "\n" (acc ++ [line]))) = "quit") := by
    rw [hclear]
    decide
  simp only [promptUserLoop, hb, Bool.false_eq_true, if_false]
  rw [if_neg hne, if_neg hexit, if_pos hclear]

/-- C9: entering the `clear` command (case-insensitive match on the
trimmed collected input) empties the ConversationHistory, starts no Turn
and touches nothing else: the loop continues on the remaining input with
the same turn counter (so no model session and no Capability Server or
knowledge-store operation happened), emitting only `histCleared`, and the
continuation is independent of the prior history. -/
theorem clear_resets_history_only (outs : Nat → Except String String)
    (line full : String) (rest rest2 : List String) (k : Nat)
    (hist : List ChatMessage)
    (h : collectLoop [] line rest = some (full, rest2))
    (hclear : jsToLower (jsTrim full) = "clear") :
    promptUserLoop outs (line :: rest) [] k hist =
      ((promptUserLoop outs rest2 [] k []).1,
       ReplEvent.histCleared :: (promptUserLoop outs rest2 [] k []).2) := by
  suffices haux : ∀ (r acc : List String) (l f : String) (r2 : List String)
      (k2 : Nat) (h2 : List ChatMessage),
      collectLoop acc l r = some (f, r2) → jsToLower (jsTrim f) = "clear" →
      promptUserLoop outs (l :: r) acc k2 h2 =
        ((promptUserLoop outs r2 [] k2 []).1,
         ReplEvent.histCleared :: (promptUserLoop outs r2 [] k2 []).2) by
    exact haux rest [] line full rest2 k hist h hclear
  intro r
  induction r with
  | nil =>
      intro acc l f r2 k2 h2 hcol hcl
      rw [collectLoop.eq_def] at hcol
      cases hb : jsEndsWith l "\\" with
      | true => simp [hb] at hcol
      | false =>
          simp only [hb, Bool.false_eq_true, if_false, Option.some.injEq,
            Prod.mk.injEq] at hcol
          obtain ⟨hf, hr⟩ := hcol
          subst hf
          subst hr
          exact loop_dispatch_clear outs l [] acc k2 h2 hb hcl
  | cons hd tl ih =>
      intro acc l f r2 k2 h2 hcol hcl
      rw [collectLoop.eq_def] at hcol
      cases hb : jsEndsWith l "\\" with
      | true =>
          simp only [hb, if_true] at hcol
          simp only [promptUserLoop, hb, if_true]
          exact ih (acc ++ [sliceDropLast l]) hd f r2 k2 h2 hcol hcl
      | false =>
          simp only [hb, Bool.false_eq_true, if_false, Option.some.injEq,
            Prod.mk.injEq] at hcol
          obtain ⟨hf, hr⟩ := hcol
          subst hf
          subst hr
          exact loop_dispatch_clear outs l (hd :: tl) acc k2 h2 hb hcl

/-- WITNESS for C9: the line "CLEAR" with a non-empty prior history leaves
an empty history and a trace of just `histCleared` then `closed`. -/
theorem clear_resets_history_only_witness :
    promptUserLoop (fun _ => Except.ok "a") ["CLEAR"] [] 0
      [⟨.user, "x"⟩, ⟨.assistant, "y"⟩] =
      (([] : List ChatMessage), [ReplEvent.histCleared, ReplEvent.closed]) := by
  have h := clear_resets_history_only (fun _ => Except.ok "a") "CLEAR" "CLEAR"
    [] [] 0 [⟨.user, "x"⟩, ⟨.assistant, "y"⟩] (by decide) (by decide)
  exact h.trans (by decide)

/-- C10: the ConversationHistory always alternates user and assistant
entries and has even length: a turn whose body returns appends exactly the
question/answer pair at the end (earlier entries untouched), a turn whose
body throws appends nothing, and the final history of every run satisfies
the alternation invariant. -/
theorem history_append_pairs (hist : List ChatMessage) (q a e : String)
    (inputs : List String) (outs : Nat → Except String String) :
    runTurnHistory hist q (Except.ok a) = hist ++ [⟨.user, q⟩, ⟨.assistant, a⟩] ∧
    runTurnHistory hist q (Except.error e) = hist ∧
    alternatesUA (startChat inputs outs).1 = true ∧
    (startChat inputs outs).1.length % 2 = 0 := by
  refine ⟨rfl, rfl, ?_, ?_⟩
  · exact loop_alternates outs inputs [] 0 [] rfl
  · have h := rolesAlt_even (startChat inputs outs).1 true
      (loop_alternates outs inputs [] 0 [] rfl)
    simpa using h

end UdbCli
